import Mathlib

/-!
Verification of the cheetah-monitoring-agent (src/main.go) against its
natural-language specification.

The Go program is shallowly embedded below.  Pure functions become Lean
functions; functions that perform I/O (environment lookup, TCP probes,
HTTP exchanges, the OS metrics provider) become functions of an explicit
environment that records the outcome of each external interaction.
Machine integers are modelled as `Int` with the explicit two's-complement
range check that `strconv.Atoi` performs; `float64` metric values are
never computed with, only carried, so they are modelled as `ℚ`.
-/

namespace Cheetah

/-! ### Go string primitives used by main.go -/

/-- Helper for `splitChar`: accumulate the characters of the current field
(in reverse) and cut a field at every separator. -/
def splitCharAux (sep : Char) : List Char → List Char → List String
  | [], acc => [⟨acc.reverse⟩]
  | c :: cs, acc =>
    if c = sep then ⟨acc.reverse⟩ :: splitCharAux sep cs []
    else splitCharAux sep cs (c :: acc)

/-- Go's `strings.Split` for a single-character separator: the fields
around every occurrence of `sep`; the empty string yields `[""]`. -/
def splitChar (sep : Char) (s : String) : List String :=
  splitCharAux sep s.data []

/-- Go's `strings.Contains` for a single-character substring. -/
def containsChar (c : Char) (s : String) : Bool :=
  s.data.contains c

/-- Whitespace recognised by Go's `strings.TrimSpace` (`unicode.IsSpace`),
restricted to the Latin-1 range that can actually occur in the
environment strings handled here: space, `\t`, `\n`, `\v`, `\f`, `\r`,
NEL (U+0085) and NBSP (U+00A0). -/
def goIsSpace (c : Char) : Bool :=
  c = ' ' || c = '\t' || c = '\n' || (c.toNat = 11) || (c.toNat = 12) ||
    c = '\r' || (c.toNat = 0x85) || (c.toNat = 0xA0)

/-- Go's `strings.TrimSpace`: drop leading and trailing whitespace. -/
def trimSpace (s : String) : String :=
  ⟨((s.data.dropWhile goIsSpace).reverse.dropWhile goIsSpace).reverse⟩

/-- Decimal digit test, as in `strconv`. -/
def isDigitChar (c : Char) : Bool :=
  '0' ≤ c && c ≤ '9'

/-- Numeric value of a list of decimal digits, most significant first. -/
def digitsVal (ds : List Char) : Nat :=
  ds.foldl (fun acc d => 10 * acc + (d.toNat - '0'.toNat)) 0

/-- Errors produced by `strconv.Atoi` (`*strconv.NumError` with
`ErrSyntax` or `ErrRange`); the offending input string is recorded. -/
inductive NumError where
  | invalidSyntax (s : String)
  | outOfRange (s : String)
deriving DecidableEq, Repr

/-- Go's `strconv.Atoi`: an optional sign followed by one or more decimal
digits, with the result required to fit in a signed 64-bit `int`. -/
def atoi (s : String) : Except NumError Int :=
  match s.data with
  | [] => .error (.invalidSyntax s)
  | c :: cs =>
    let ds := if c = '-' || c = '+' then cs else c :: cs
    if ds.isEmpty then .error (.invalidSyntax s)
    else if ds.all isDigitChar then
      let n : Nat := digitsVal ds
      if c = '-' then
        if n ≤ 2 ^ 63 then .ok (-(n : Int)) else .error (.outOfRange s)
      else
        if n < 2 ^ 63 then .ok (n : Int) else .error (.outOfRange s)
    else .error (.invalidSyntax s)

/-! ### parsePorts (src/main.go lines 62-95) -/

/-- Errors produced by `parsePorts`: an `Atoi` failure, a token containing
`-` that does not split into exactly two parts, or an inverted range. -/
inductive PortsError where
  | atoiErr (e : NumError)
  | invalidRange (token : String)
  | invalidRangeOrder (token : String)
deriving DecidableEq, Repr

/-- The closed interval of integers from `a` to `b`, in increasing order;
this is the list the Go loop `for i := start; i <= end; i++` appends. -/
def rangeClosed (a b : Int) : List Int :=
  (List.range' 0 (b + 1 - a).toNat).map fun i => a + (i : Int)

/-- One iteration of the token loop of `parsePorts`: trim the token; if it
contains `-` treat it as a range (split on `-`, demand exactly two parts,
`Atoi` each after trimming, reject `start > end`), otherwise `Atoi` it as
a single port. -/
def parseToken (token : String) : Except PortsError (List Int) :=
  let token := trimSpace token
  if containsChar '-' token then
    match splitChar '-' token with
    | [a, b] =>
      match atoi (trimSpace a) with
      | .error e => .error (.atoiErr e)
      | .ok start =>
        match atoi (trimSpace b) with
        | .error e => .error (.atoiErr e)
        | .ok stop =>
          if start > stop then .error (.invalidRangeOrder token)
          else .ok (rangeClosed start stop)
    | _ => .error (.invalidRange token)
  else
    match atoi token with
    | .error e => .error (.atoiErr e)
    | .ok port => .ok [port]

/-- The token loop of `parsePorts`: tokens are processed left to right,
their expansions concatenated; the first failing token aborts the whole
parse with its error and no partial list. -/
def parseTokens : List String → Except PortsError (List Int)
  | [] => .ok []
  | t :: ts =>
    match parseToken t with
    | .error e => .error e
    | .ok ps =>
      match parseTokens ts with
      | .error e => .error e
      | .ok rest => .ok (ps ++ rest)

/-- `parsePorts` from src/main.go: split the specification on `,`
(`strings.Split`, which yields `[""]` on the empty string) and run the
token loop. -/
def parsePorts (s : String) : Except PortsError (List Int) :=
  parseTokens (splitChar ',' s)

/-! ### Spec-side token grammar for claim C1

`claimIntLit`/`claimValidToken` formalise the claim's words ("each token a
single integer or an inclusive range start-end with start <= end,
surrounding whitespace ignored"); `tokenValid`/`tokenValues` formalise the
grammar the code actually accepts, for the amended statement. -/

/-- Reading of claim C1's "a single integer": an optional sign followed
by one or more decimal digits, with no bound on magnitude. -/
def claimIntLit (s : String) : Bool :=
  match s.data with
  | [] => false
  | c :: cs =>
    let ds := if c = '-' || c = '+' then cs else c :: cs
    !ds.isEmpty && ds.all isDigitChar

/-- Value of an integer literal in the sense of `claimIntLit`. -/
def claimIntVal (s : String) : Int :=
  match s.data with
  | [] => 0
  | c :: cs =>
    let ds := if c = '-' || c = '+' then cs else c :: cs
    if c = '-' then -(digitsVal ds : Int) else (digitsVal ds : Int)

/-- Claim C1's "valid token": after trimming surrounding whitespace,
either a single integer, or a range `start-end` (two integer parts around
a `-`, each trimmed) with `start ≤ end`. -/
def claimValidToken (tok : String) : Bool :=
  let t := trimSpace tok
  claimIntLit t ||
    (match splitChar '-' t with
     | [a, b] =>
       claimIntLit (trimSpace a) && claimIntLit (trimSpace b) &&
         decide (claimIntVal (trimSpace a) ≤ claimIntVal (trimSpace b))
     | _ => false)

/-- A token the code accepts: after trimming, either `Atoi`-valid with no
`-` inside, or split by `-` into exactly two `Atoi`-valid parts (each
trimmed) in non-decreasing order. -/
def tokenValid (tok : String) : Bool :=
  let t := trimSpace tok
  if containsChar '-' t then
    match splitChar '-' t with
    | [a, b] =>
      match atoi (trimSpace a), atoi (trimSpace b) with
      | .ok x, .ok y => decide (x ≤ y)
      | _, _ => false
    | _ => false
  else (atoi t).isOk

/-- The values a valid token contributes: the literal's value, or the
inclusive expansion of the range. -/
def tokenValues (tok : String) : List Int :=
  let t := trimSpace tok
  if containsChar '-' t then
    match splitChar '-' t with
    | [a, b] =>
      match atoi (trimSpace a), atoi (trimSpace b) with
      | .ok x, .ok y => rangeClosed x y
      | _, _ => []
    | _ => []
  else
    match atoi t with
    | .ok v => [v]
    | .error _ => []

/-! ### getOpenPorts (src/main.go lines 100-142) -/

/-- The full TCP scan of `getOpenPorts` (src/main.go lines 112-141): for
every port from 1 to 65535, probe `127.0.0.1:<port>`; each probe's
outcome is given by the oracle `isOpen`.  The goroutines append their
ports to the shared slice under a mutex in a nondeterministic order; the
result is modelled in increasing port order, which has the same
membership and multiplicity as any interleaving because each worker
appends its own port at most once. -/
def scanPorts (isOpen : Int → Bool) : List Int :=
  (List.map (fun p => Int.ofNat p) (List.range' 1 65535)).filter isOpen

/-- `getOpenPorts` from src/main.go: `portsEnv` is the value of the PORTS
environment variable (`os.Getenv` reports `""` both when the variable is
unset and when it is empty).  A non-empty value is parsed; on success the
parsed list is returned as is, on failure the error is logged and the
full scan runs; an empty value goes straight to the full scan. -/
def getOpenPorts (portsEnv : String) (isOpen : Int → Bool) : List Int :=
  if portsEnv ≠ "" then
    match parsePorts portsEnv with
    | .ok p => p
    | .error _ => scanPorts isOpen
  else scanPorts isOpen

/-! ### Registration and metrics records (src/main.go lines 20-37) -/

/-- AgentInfo from src/main.go.  Its JSON serialization is faithful
field-for-field, so the registration payload is modelled as the record
itself. -/
structure AgentInfo where
  hostname : String
  ip : String
  openPorts : List Int
  timestamp : Int
  agentPort : Int
deriving DecidableEq, Repr

/-- Metrics from src/main.go; the `float64` percentages are carried,
never computed with, so they are modelled as rationals. -/
structure Metrics where
  hostname : String
  ip : String
  timestamp : Int
  cpuUsage : ℚ
  diskUsage : ℚ
  ramUsage : ℚ
deriving DecidableEq, Repr

/-! ### registerAgent (src/main.go lines 145-163) -/

/-- registerAgent: `json.Marshal` of AgentInfo (strings, ints, an int
slice) cannot fail, so serialization is modelled as total; `resp` is the
outcome of the blocking `http.Post` — a transport error, or a completed
exchange with its numeric status code.  The code accepts exactly
`http.StatusOK` (200). -/
def registerAgent (agentInfo : AgentInfo) (resp : Except String Nat) :
    Except String Unit :=
  match resp with
  | .error e => .error ("failed to send registration: " ++ e)
  | .ok status =>
    if status ≠ 200 then
      .error ("registration failed with status: " ++ toString status)
    else .ok ()

/-! ### sendMetrics (src/main.go lines 166-180) -/

/-- sendMetrics: on a completed exchange the numeric status is only
logged (second component) and no error is raised, whatever the status;
a transport error is returned.  (The Go code logs `resp.Status`, e.g.
`"200 OK"`; the log line is modelled with the numeric code.) -/
def sendMetrics (metrics : Metrics) (resp : Except String Nat) :
    Except String Unit × List String :=
  match resp with
  | .error e => (.error ("failed to send metrics: " ++ e), [])
  | .ok status => (.ok (), ["Metrics sent: " ++ toString status])

/-! ### collectMetrics (src/main.go lines 183-222) -/

/-- Outcomes of the external queries `collectMetrics` performs, one field
per `os`/`gopsutil` call, plus the current clock reading. -/
structure MetricsProvider where
  hostname : Except String String
  localIP : Except String String
  cpuPercents : Except String (List ℚ)
  memUsedPercent : Except String ℚ
  diskUsedPercent : Except String ℚ
  nowMillis : Int

/-- collectMetrics: each query failure aborts the whole call with an
error; `cpu.Percent` returning an empty slice counts as a CPU failure
(`err != nil || len(cpuPercents) == 0`), otherwise `cpuPercents[0]` is
used; a successful call populates every field from the queries and
stamps `time.Now().UnixMilli()`. -/
def collectMetrics (env : MetricsProvider) : Except String Metrics :=
  match env.hostname with
  | .error e => .error ("failed to get hostname: " ++ e)
  | .ok hostname =>
  match env.localIP with
  | .error e => .error ("failed to get local IP: " ++ e)
  | .ok ip =>
  match env.cpuPercents with
  | .error e => .error ("failed to get CPU usage: " ++ e)
  | .ok cpuPercents =>
  match cpuPercents with
  | [] => .error "failed to get CPU usage: "
  | cpuUsage :: _ =>
  match env.memUsedPercent with
  | .error e => .error ("failed to get memory usage: " ++ e)
  | .ok ramUsage =>
  match env.diskUsedPercent with
  | .error e => .error ("failed to get disk usage: " ++ e)
  | .ok diskUsage =>
    .ok { hostname := hostname, ip := ip, timestamp := env.nowMillis,
          cpuUsage := cpuUsage, diskUsage := diskUsage,
          ramUsage := ramUsage }

/-! ### The send interval (src/main.go lines 294-302) -/

/-- The reporter interval in seconds as main computes it: a non-empty
`SEND_INTERVAL` that `Atoi` parses — including `"0"` — is used as is;
an empty or unparseable value leaves the default 60. -/
def sendInterval (sendIntervalStr : String) : Int :=
  if sendIntervalStr ≠ "" then
    match atoi sendIntervalStr with
    | .ok seconds => seconds
    | .error _ => 60
  else 60

/-! ### The reporter loop (src/main.go lines 304-327) -/

/-- Per-cycle external outcomes: the provider queries and the HTTP
transport result for that cycle's send. -/
structure CycleEnv where
  provider : MetricsProvider
  transport : Except String Nat

/-- What one cycle did. -/
inductive CycleOutcome where
  | collectFailed (e : String)
  | sendFailed (e : String)
  | sent
deriving DecidableEq, Repr

/-- One reporting cycle (the loop body at lines 318-327, identical to the
immediate send at lines 308-315): collect; on a collection error log and
skip the send; otherwise send, logging any transmission error.  Nothing
in the body can exit the loop. -/
def runCycle (c : CycleEnv) : CycleOutcome :=
  match collectMetrics c.provider with
  | .error e => .collectFailed e
  | .ok m =>
    match (sendMetrics m c.transport).1 with
    | .error e => .sendFailed e
    | .ok _ => .sent

/-- The outcomes of the reporter after `n` ticker ticks: cycle 0 runs
immediately at startup before any tick, and every tick appends exactly
one more attempted cycle, whatever the earlier outcomes were. -/
def reporterRun (envs : Nat → CycleEnv) : Nat → List CycleOutcome
  | 0 => [runCycle (envs 0)]
  | n + 1 => reporterRun envs n ++ [runCycle (envs (n + 1))]

/-! ### Startup (src/main.go lines 227-269) -/

/-- Outcomes of the external interactions of main's startup phase: the
`":0"` listener bind (reporting the OS-chosen port), the hostname and IP
lookups, the PORTS environment value, the scan oracle, and the clock. -/
structure StartupEnv where
  listen : Except String Int
  hostname : Except String String
  localIP : Except String String
  portsEnv : String
  isOpen : Int → Bool
  nowMillis : Int

/-- main's startup up to the registration payload: bind the listener
(failure aborts), read hostname and IP (each failure aborts), resolve
the ports, and build the AgentInfo whose `agentPort` is the listener's
bound port. -/
def startupAgentInfo (env : StartupEnv) : Except String AgentInfo :=
  match env.listen with
  | .error e => .error ("Error starting listener: " ++ e)
  | .ok agentPort =>
  match env.hostname with
  | .error e => .error ("Error getting hostname: " ++ e)
  | .ok hostname =>
  match env.localIP with
  | .error e => .error ("Error getting local IP: " ++ e)
  | .ok ip =>
    .ok { hostname := hostname, ip := ip,
          openPorts := getOpenPorts env.portsEnv env.isOpen,
          timestamp := env.nowMillis, agentPort := agentPort }

/-! ### Lemmas about the token loop -/

theorem parseToken_ok_of_valid (t : String) (h : tokenValid t = true) :
    parseToken t = .ok (tokenValues t) := by
  simp only [tokenValid] at h
  simp only [parseToken, tokenValues]
  cases hc : containsChar '-' (trimSpace t) with
  | false =>
    simp [hc] at h ⊢
    cases ha : atoi (trimSpace t) with
    | ok v => simp [ha]
    | error e => simp [ha, Except.isOk, Except.toBool] at h
  | true =>
    simp [hc] at h ⊢
    rcases hs : splitChar '-' (trimSpace t) with _ | ⟨a, _ | ⟨b, _ | ⟨c, rest⟩⟩⟩
    · simp [hs] at h
    · simp [hs] at h
    · simp [hs] at h ⊢
      cases ha : atoi (trimSpace a) with
      | error e => simp [ha] at h
      | ok x =>
        cases hb : atoi (trimSpace b) with
        | error e => simp [ha, hb] at h
        | ok y =>
          simp [ha, hb] at h ⊢
          omega
    · simp [hs] at h

theorem parseToken_err_of_invalid (t : String) (h : tokenValid t = false) :
    ∃ e, parseToken t = .error e := by
  simp only [tokenValid] at h
  simp only [parseToken]
  cases hc : containsChar '-' (trimSpace t) with
  | false =>
    simp [hc] at h ⊢
    cases ha : atoi (trimSpace t) with
    | ok v => simp [ha, Except.isOk, Except.toBool] at h
    | error e => exact ⟨.atoiErr e, by simp [ha]⟩
  | true =>
    simp [hc] at h ⊢
    rcases hs : splitChar '-' (trimSpace t) with _ | ⟨a, _ | ⟨b, _ | ⟨c, rest⟩⟩⟩
    · exact ⟨.invalidRange (trimSpace t), by simp [hs]⟩
    · exact ⟨.invalidRange (trimSpace t), by simp [hs]⟩
    · simp [hs] at h
      cases ha : atoi (trimSpace a) with
      | error e => exact ⟨.atoiErr e, by simp [hs, ha]⟩
      | ok x =>
        cases hb : atoi (trimSpace b) with
        | error e => exact ⟨.atoiErr e, by simp [hs, ha, hb]⟩
        | ok y =>
          simp [ha, hb] at h
          refine ⟨.invalidRangeOrder (trimSpace t), ?_⟩
          simp [hs, ha, hb]
          omega
    · exact ⟨.invalidRange (trimSpace t), by simp [hs]⟩

theorem parseTokens_ok_of_all_valid (ts : List String)
    (h : ts.all tokenValid = true) :
    parseTokens ts = .ok (ts.flatMap tokenValues) := by
  induction ts with
  | nil => rfl
  | cons hd tl ih =>
    simp only [List.all_cons, Bool.and_eq_true] at h
    simp only [parseTokens, parseToken_ok_of_valid hd h.1, ih h.2,
      List.flatMap_cons]

theorem parseTokens_first_invalid (ts : List String) (t : String)
    (h : ts.find? (fun u => !tokenValid u) = some t) :
    ∃ e, parseToken t = .error e ∧ parseTokens ts = .error e := by
  induction ts with
  | nil => simp at h
  | cons hd tl ih =>
    cases hv : tokenValid hd with
    | false =>
      rw [List.find?_cons_of_pos _ (by simp [hv])] at h
      obtain rfl : hd = t := Option.some.inj h
      obtain ⟨e, he⟩ := parseToken_err_of_invalid hd hv
      exact ⟨e, he, by simp only [parseTokens, he]⟩
    | true =>
      rw [List.find?_cons_of_neg _ (by simp [hv])] at h
      obtain ⟨e, he, hrec⟩ := ih h
      exact ⟨e, he, by
        simp only [parseTokens, parseToken_ok_of_valid hd hv, hrec]⟩

/-! ### Claims C1, C2, C3, C10 -/

/-- C1, counterexample: the token `-5` is a single integer (value `-5`),
so by the claim `parsePorts "-5"` should return `[-5]`; the code instead
classifies any token containing `-` as a range, splits `-5` into the
parts `""` and `"5"`, and fails on `Atoi ""`. -/
theorem parsePorts_claim_counterexample :
    ((splitChar ',' "-5").all claimValidToken = true) ∧
      claimIntVal "-5" = -5 ∧
      parsePorts "-5" = .error (.atoiErr (.invalidSyntax "")) :=
  ⟨rfl, by decide, rfl⟩

/-- C1, amended: for every port-specification string whose tokens are all
valid in the sense the code accepts (after trimming, either a single
non-negative integer with no `-` in it, fitting in a signed 64-bit int,
or a range `start-end` splitting on `-` into exactly two such integers
with `start ≤ end`), `parsePorts` returns the concatenation of the
literal values and the inclusive range expansions; for every string
containing an invalid token, `parsePorts` fails with the first invalid
token's error and returns no partial list. -/
theorem parsePorts_spec (s : String) :
    ((splitChar ',' s).all tokenValid = true →
      parsePorts s = .ok ((splitChar ',' s).flatMap tokenValues)) ∧
    (∀ tk, (splitChar ',' s).find? (fun u => !tokenValid u) = some tk →
      ∃ e, parseToken tk = .error e ∧ parsePorts s = .error e) ∧
    ((splitChar ',' s).all tokenValid = false →
      ∃ e, parsePorts s = .error e) := by
  refine ⟨fun h => parseTokens_ok_of_all_valid _ h,
    fun tk h => parseTokens_first_invalid _ _ h, fun h => ?_⟩
  obtain ⟨u, hu, hpu⟩ := List.all_eq_false.mp h
  have hsome : ((splitChar ',' s).find? (fun u => !tokenValid u)).isSome :=
    List.find?_isSome.mpr ⟨u, hu, by simp [Bool.eq_false_iff.mpr hpu]⟩
  obtain ⟨tk, htk⟩ := Option.isSome_iff_exists.mp hsome
  obtain ⟨e, _, he⟩ := parseTokens_first_invalid _ _ htk
  exact ⟨e, he⟩

theorem parsePorts_spec_witness :
    parsePorts "22, 8000-8002" = .ok [22, 8000, 8001, 8002] ∧
      ∃ e, parseToken "x" = .error e ∧ parsePorts "1,x,2" = .error e :=
  ⟨((parsePorts_spec "22, 8000-8002").1 rfl).trans (by rfl),
   (parsePorts_spec "1,x,2").2.1 "x" rfl⟩

/-- C2, counterexample: with `PORTS="0,0"` the program's port set is the
parsed list `[0, 0]`: the value 0 occurs twice (a duplicate) and lies
below 1 (outside `1..65535`) — the parser validates neither. -/
theorem portSet_invariant_counterexample :
    getOpenPorts "0,0" (fun _ => false) = [0, 0] ∧
      (getOpenPorts "0,0" (fun _ => false)).count 0 = 2 ∧
      (0 : Int) ∈ getOpenPorts "0,0" (fun _ => false) ∧ (0 : Int) < 1 :=
  ⟨rfl, by decide, by decide, by decide⟩

/-- C2, amended: a PortSet produced by the full scan contains no
duplicate values and no values outside `1..65535`; a PortSet produced by
parsing a PORTS specification is returned verbatim and enjoys no such
invariant. -/
theorem scanPorts_nodup_and_bounded (isOpen : Int → Bool) :
    (scanPorts isOpen).Nodup ∧
      ∀ x ∈ scanPorts isOpen, 1 ≤ x ∧ x ≤ 65535 := by
  constructor
  · exact ((List.nodup_range' 1 65535).map
      (fun a b hab => Int.ofNat.inj hab)).filter _
  · intro x hx
    simp only [scanPorts, List.mem_filter, List.mem_map, List.mem_range'_1] at hx
    obtain ⟨⟨p, hp, rfl⟩, -⟩ := hx
    simp only [Int.ofNat_eq_coe]
    omega

theorem scanPorts_witness :
    ((1 : Int) ∈ scanPorts (fun _ => true)) ∧
      (1 ≤ (1 : Int) ∧ (1 : Int) ≤ 65535) := by
  have hm : (1 : Int) ∈ scanPorts (fun _ => true) := by
    simp only [scanPorts, List.mem_filter, List.mem_map, List.mem_range'_1]
    exact ⟨⟨1, by omega, rfl⟩, trivial⟩
  exact ⟨hm, (scanPorts_nodup_and_bounded (fun _ => true)).2 1 hm⟩

/-- C3: if PORTS is present (non-empty) and parses, its parsed list is
returned verbatim, for every reachability oracle (no reachability check);
if it is present but fails to parse, the result is the full scan; if it
is absent, the result is the full scan. -/
theorem getOpenPorts_spec (portsEnv : String) (isOpen : Int → Bool) :
    (∀ p, portsEnv ≠ "" → parsePorts portsEnv = .ok p →
      getOpenPorts portsEnv isOpen = p) ∧
    (∀ e, parsePorts portsEnv = .error e →
      getOpenPorts portsEnv isOpen = scanPorts isOpen) ∧
    (portsEnv = "" → getOpenPorts portsEnv isOpen = scanPorts isOpen) := by
  refine ⟨fun p hne hok => ?_, fun e herr => ?_,
    fun h => by simp [getOpenPorts, h]⟩
  · simp [getOpenPorts, hne, hok]
  · by_cases hne : portsEnv = ""
    · simp [getOpenPorts, hne]
    · simp [getOpenPorts, hne, herr]

theorem getOpenPorts_spec_witness :
    getOpenPorts "22,8000-8002" (fun _ => false) = [22, 8000, 8001, 8002] ∧
      getOpenPorts "" (fun _ => false) = scanPorts (fun _ => false) ∧
      getOpenPorts "9-1" (fun _ => false) = scanPorts (fun _ => false) :=
  ⟨(getOpenPorts_spec "22,8000-8002" _).1 _ (by decide) (by rfl),
   (getOpenPorts_spec "" _).2.2 rfl,
   (getOpenPorts_spec "9-1" _).2.1 _ (by rfl)⟩

/-- C10: the empty string splits into the single empty token `""`, which
is not a valid integer, so `parsePorts ""` is an `Atoi` syntax error and
never an empty port list. -/
theorem parsePorts_empty_string :
    splitChar ',' "" = [""] ∧
      parsePorts "" = .error (.atoiErr (.invalidSyntax "")) :=
  ⟨rfl, rfl⟩

/-! ### Claims C4, C5, C6, C7 -/

/-- C4, counterexample: 201 is a 2xx status, yet registerAgent reports a
registration error for it — the code accepts exactly `http.StatusOK`
(200), not all of 2xx. -/
theorem registerAgent_claim_counterexample :
    ((200 : Nat) ≤ 201 ∧ (201 : Nat) < 300) ∧
      registerAgent ⟨"h", "10.0.0.2", [22], 0, 4567⟩ (.ok 201) =
        .error ("registration failed with status: " ++ toString 201) :=
  ⟨⟨by omega, by omega⟩, rfl⟩

/-- C4, amended: registerAgent succeeds exactly for a completed exchange
with status 200; any other status — the remaining 2xx codes included —
and any transport failure yields a registration error. -/
theorem registerAgent_spec (info : AgentInfo) :
    (∀ status : Nat,
      registerAgent info (.ok status) = .ok () ↔ status = 200) ∧
    (∀ e, ∃ msg, registerAgent info (.error e) = .error msg) := by
  refine ⟨fun status => ⟨fun h => ?_, fun h => by simp [registerAgent, h]⟩,
    fun e => ⟨_, rfl⟩⟩
  by_contra hne
  simp [registerAgent, hne] at h

theorem registerAgent_spec_witness :
    (registerAgent ⟨"h", "10.0.0.2", [22], 0, 4567⟩ (.ok 200) = .ok ()) ∧
      ∃ msg, registerAgent ⟨"h", "10.0.0.2", [22], 0, 4567⟩
        (.error "connection refused") = .error msg :=
  ⟨((registerAgent_spec ⟨"h", "10.0.0.2", [22], 0, 4567⟩).1 200).mpr rfl,
   (registerAgent_spec ⟨"h", "10.0.0.2", [22], 0, 4567⟩).2 "connection refused"⟩

/-- C5: the code evaluated at the failing input `SEND_INTERVAL="0"`: the
interval becomes 0 seconds, not the default 60 (and `time.NewTicker`
panics on a non-positive duration at line 304); an unparseable or empty
value does fall back to the default. -/
theorem sendInterval_zero :
    sendInterval "0" = 0 ∧ sendInterval "abc" = 60 ∧ sendInterval "" = 60 :=
  ⟨rfl, rfl, rfl⟩

/-- C6: any provider-query failure makes collectMetrics return a
collection error and no partial sample; a successful call has every
field populated from its successful query (hostname, IP, head of the CPU
slice, memory and disk used-percent, current clock). -/
theorem collectMetrics_spec (env : MetricsProvider) :
    (∀ m, collectMetrics env = .ok m →
      env.hostname = .ok m.hostname ∧
      env.localIP = .ok m.ip ∧
      (∃ rest, env.cpuPercents = .ok (m.cpuUsage :: rest)) ∧
      env.memUsedPercent = .ok m.ramUsage ∧
      env.diskUsedPercent = .ok m.diskUsage ∧
      m.timestamp = env.nowMillis) ∧
    ((env.hostname.isOk = false ∨ env.localIP.isOk = false ∨
      env.cpuPercents.isOk = false ∨ env.memUsedPercent.isOk = false ∨
      env.diskUsedPercent.isOk = false) →
      ∃ e, collectMetrics env = .error e) := by
  obtain ⟨hn, ip, cp, vm, dk, now⟩ := env
  constructor
  · intro m hm
    cases hn with
    | error e => simp [collectMetrics] at hm
    | ok hnv =>
      cases ip with
      | error e => simp [collectMetrics] at hm
      | ok ipv =>
        cases cp with
        | error e => simp [collectMetrics] at hm
        | ok l =>
          cases l with
          | nil => simp [collectMetrics] at hm
          | cons c rest =>
            cases vm with
            | error e => simp [collectMetrics] at hm
            | ok vmv =>
              cases dk with
              | error e => simp [collectMetrics] at hm
              | ok dkv =>
                simp only [collectMetrics, Except.ok.injEq] at hm
                subst hm
                exact ⟨rfl, rfl, ⟨rest, rfl⟩, rfl, rfl, rfl⟩
  · intro h
    cases hn with
    | error e => exact ⟨_, rfl⟩
    | ok hnv =>
      cases ip with
      | error e => exact ⟨_, rfl⟩
      | ok ipv =>
        cases cp with
        | error e => exact ⟨_, rfl⟩
        | ok l =>
          cases vm with
          | error e =>
            cases l with
            | nil => exact ⟨_, rfl⟩
            | cons c rest => exact ⟨_, rfl⟩
          | ok vmv =>
            cases dk with
            | error e =>
              cases l with
              | nil => exact ⟨_, rfl⟩
              | cons c rest => exact ⟨_, rfl⟩
            | ok dkv =>
              simp [Except.isOk, Except.toBool] at h

theorem collectMetrics_spec_witness :
    collectMetrics ⟨.ok "h", .ok "10.0.0.2", .ok [12], .ok 34, .ok 56, 5⟩ =
        .ok ⟨"h", "10.0.0.2", 5, 12, 56, 34⟩ ∧
      (Except.ok "h" : Except String String) = .ok "h" ∧
      (∃ e, collectMetrics
        ⟨.error "down", .ok "10.0.0.2", .ok [12], .ok 34, .ok 56, 5⟩ =
          .error e) :=
  ⟨rfl,
   ((collectMetrics_spec ⟨.ok "h", .ok "10.0.0.2", .ok [12], .ok 34, .ok 56,
      5⟩).1 ⟨"h", "10.0.0.2", 5, 12, 56, 34⟩ rfl).1,
   (collectMetrics_spec ⟨.error "down", .ok "10.0.0.2", .ok [12], .ok 34,
      .ok 56, 5⟩).2 (Or.inl rfl)⟩

/-- C7: sendMetrics returns an error only on a transport failure; for
every completed exchange, whatever the status, the status is logged and
no error is raised. -/
theorem sendMetrics_spec (m : Metrics) :
    (∀ status : Nat, sendMetrics m (.ok status) =
      (.ok (), ["Metrics sent: " ++ toString status])) ∧
    (∀ e, sendMetrics m (.error e) =
      (.error ("failed to send metrics: " ++ e), [])) :=
  ⟨fun _ => rfl, fun _ => rfl⟩

/-! ### Claims C8, C9 -/

/-- C8: after `n` ticks the reporter has attempted exactly `n + 1`
cycles — the extra one is the immediate send before the first tick — and
every cycle `i`'s outcome is a function of that cycle's own environment
alone: an error in any cycle never prevents a later cycle from being
attempted, and the loop produces an outcome for every tick (it never
exits). -/
theorem reporterRun_spec (envs : Nat → CycleEnv) (n : Nat) :
    (reporterRun envs n).length = n + 1 ∧
      ∀ i, i ≤ n → (reporterRun envs n)[i]? = some (runCycle (envs i)) := by
  induction n with
  | zero =>
    refine ⟨rfl, fun i hi => ?_⟩
    obtain rfl := Nat.le_zero.mp hi
    rfl
  | succ n ih =>
    refine ⟨by simp [reporterRun, ih.1], fun i hi => ?_⟩
    rcases Nat.lt_or_ge i (n + 1) with hlt | hge
    · have hl : i < (reporterRun envs n).length := by rw [ih.1]; omega
      rw [reporterRun, List.getElem?_append_left hl]
      exact ih.2 i (by omega)
    · obtain rfl : i = n + 1 := by omega
      have hl : (reporterRun envs n).length = n + 1 := ih.1
      rw [reporterRun, ← hl, List.getElem?_concat_length]

theorem reporterRun_spec_witness :
    (reporterRun (fun i => if i = 0 then
        ⟨⟨.error "down", .ok "10.0.0.2", .ok [12], .ok 34, .ok 56, 0⟩, .ok 200⟩
      else
        ⟨⟨.ok "h", .ok "10.0.0.2", .ok [12], .ok 34, .ok 56, 0⟩, .ok 200⟩)
      1).length = 2 ∧
    (reporterRun (fun i => if i = 0 then
        ⟨⟨.error "down", .ok "10.0.0.2", .ok [12], .ok 34, .ok 56, 0⟩, .ok 200⟩
      else
        ⟨⟨.ok "h", .ok "10.0.0.2", .ok [12], .ok 34, .ok 56, 0⟩, .ok 200⟩)
      1)[0]? = some (.collectFailed ("failed to get hostname: " ++ "down")) ∧
    (reporterRun (fun i => if i = 0 then
        ⟨⟨.error "down", .ok "10.0.0.2", .ok [12], .ok 34, .ok 56, 0⟩, .ok 200⟩
      else
        ⟨⟨.ok "h", .ok "10.0.0.2", .ok [12], .ok 34, .ok 56, 0⟩, .ok 200⟩)
      1)[1]? = some .sent := by
  refine ⟨(reporterRun_spec _ 1).1, ?_, ?_⟩
  · exact ((reporterRun_spec _ 1).2 0 (by omega)).trans (by rfl)
  · exact ((reporterRun_spec _ 1).2 1 (by omega)).trans (by rfl)

/-- C9: whenever startup succeeds, the registration payload's
`agentPort` equals the port the listener bind reported. -/
theorem agentPort_eq_bound (env : StartupEnv) (info : AgentInfo) :
    startupAgentInfo env = .ok info → env.listen = .ok info.agentPort := by
  obtain ⟨ln, hn, ip, pe, io, now⟩ := env
  intro h
  cases ln with
  | error e => simp [startupAgentInfo] at h
  | ok port =>
    cases hn with
    | error e => simp [startupAgentInfo] at h
    | ok hnv =>
      cases ip with
      | error e => simp [startupAgentInfo] at h
      | ok ipv =>
        simp only [startupAgentInfo, Except.ok.injEq] at h
        subst h
        rfl

theorem agentPort_eq_bound_witness :
    startupAgentInfo ⟨.ok 4567, .ok "h", .ok "10.0.0.2", "22",
        fun _ => false, 0⟩ = .ok ⟨"h", "10.0.0.2", [22], 0, 4567⟩ ∧
      (StartupEnv.listen ⟨.ok 4567, .ok "h", .ok "10.0.0.2", "22",
        fun _ => false, 0⟩) =
        .ok (AgentInfo.agentPort ⟨"h", "10.0.0.2", [22], 0, 4567⟩) :=
  ⟨rfl, agentPort_eq_bound _ _ rfl⟩

end Cheetah
